import Mathlib

/- Shallow embedding of src/codex.py, a Python docstring-to-HTML
documentation generator.  Pure fragments of the program become Lean
functions; the external collaborators (chardet, ast.parse, pygments) are
black boxes modelled as parameters or as outcome data carried by the file
system model. -/

/-- Kind of a Python AST node, as tested by the isinstance check in
extract_docstring.  Nodes other than Module, ClassDef, FunctionDef and
AsyncFunctionDef are collapsed into the other constructor, which carries
the Python type name of the node. -/
inductive NodeKind where
  | module
  | classDef
  | functionDef
  | asyncFunctionDef
  | other (tyName : String)

/-- Python type name of a node of this kind, as the expression
type(node).__name__ at line 38 of codex.py produces it. -/
def NodeKind.typeName : NodeKind → String
  | .module => "Module"
  | .classDef => "ClassDef"
  | .functionDef => "FunctionDef"
  | .asyncFunctionDef => "AsyncFunctionDef"
  | .other s => s

/-- A Python syntax-tree node as the black-box tree builder delivers it:
kind, optional name attribute (Module has none), optional lineno and
end_lineno attributes (ast.Module carries neither, and trees from old
Python versions lack end_lineno), the text ast.get_docstring would return
for the node (none when absent), and the children in ast.iter_child_nodes
order. -/
inductive ASTNode where
  | node (kind : NodeKind) (name : Option String) (lineno : Option Nat)
      (endLineno : Option Nat) (doc : Option String) (children : List ASTNode)

/-- Kind of the node. -/
def ASTNode.kind : ASTNode → NodeKind
  | .node k _ _ _ _ _ => k

/-- Value of getattr(node, "name", None). -/
def ASTNode.nameAttr : ASTNode → Option String
  | .node _ nm _ _ _ _ => nm

/-- Value of node.lineno when the attribute exists. -/
def ASTNode.lineno : ASTNode → Option Nat
  | .node _ _ ln _ _ _ => ln

/-- Value of node.end_lineno when the attribute exists. -/
def ASTNode.endLineno : ASTNode → Option Nat
  | .node _ _ _ el _ _ => el

/-- Value ast.get_docstring(node) would return, as data on the node. -/
def ASTNode.docAttr : ASTNode → Option String
  | .node _ _ _ _ d _ => d

/-- Children of the node in ast.iter_child_nodes order. -/
def ASTNode.children : ASTNode → List ASTNode
  | .node _ _ _ _ _ cs => cs

mutual

/-- Number of nodes in a tree. -/
def ASTNode.size : ASTNode → Nat
  | .node _ _ _ _ _ cs => 1 + sizeChildren cs

/-- Total number of nodes in a forest. -/
def sizeChildren : List ASTNode → Nat
  | [] => 0
  | c :: cs => ASTNode.size c + sizeChildren cs

end

/-- Breadth-first queue step of ast.walk: pop the front node, yield it, and
push its children at the back of the queue.  The fuel argument only bounds
the recursion so that it is structural; ast_walk supplies exactly the
number of nodes in the tree, which the traversal consumes one per step, so
the zero-fuel branch is never reached from ast_walk. -/
def walkQueueF : Nat → List ASTNode → List ASTNode
  | _, [] => []
  | 0, _ => []
  | fuel + 1, n :: rest => n :: walkQueueF fuel (rest ++ n.children)

/-- Model of ast.walk(tree) as used at line 37 of codex.py: CPython
implements it with a deque seeded with the root, popleft, and extend with
the children, which is a breadth-first traversal. -/
def ast_walk (t : ASTNode) : List ASTNode := walkQueueF (ASTNode.size t) [t]

/-- Model of the Python strip method on strings: remove leading and
trailing whitespace characters. -/
def pyStrip (s : String) : String :=
  String.mk (((s.data.dropWhile Char.isWhitespace).reverse.dropWhile
    Char.isWhitespace).reverse)

/-- Helper for pySplitlines; acc holds the characters of the current line
in reverse. -/
def splitlinesAux (acc : List Char) : List Char → List String
  | [] => if acc.isEmpty then [] else [String.mk acc.reverse]
  | c :: rest =>
    if c = '\n' then String.mk acc.reverse :: splitlinesAux [] rest
    else splitlinesAux (c :: acc) rest

/-- Model of the Python splitlines method for LF-separated text: one entry
per line, and no trailing empty entry for a final newline.  (Python also
accepts other line boundaries such as CR; the sources this program slices
are modelled as LF-separated.) -/
def pySplitlines (s : String) : List String := splitlinesAux [] s.data

/-- Model of the Python newline join applied to a list of lines, as in
line 46 of codex.py. -/
def joinLines : List String → String
  | [] => ""
  | [l] => l
  | l :: rest => l ++ "\n" ++ joinLines rest

/-- Source slice computed at lines 44-46 of parse_file: join the list
slice content.splitlines()[startLine:endLine] with newlines.  A Python
list slice with lower bound a and upper bound b is drop a followed by
take (b - a). -/
def sliceLines (content : String) (startLine endLine : Nat) : String :=
  joinLines (((pySplitlines content).drop startLine).take (endLine - startLine))

/-- Model of the Python replace method as called at line 53 of codex.py
with pattern ".py" and empty replacement: every non-overlapping occurrence
of the three characters dot, p, y is removed, scanning left to right. -/
def removePy : List Char → List Char
  | '.' :: 'p' :: 'y' :: rest => removePy rest
  | c :: rest => c :: removePy rest
  | [] => []

/-- Helper for os_path_basename: keep only the characters after the last
slash. -/
def basenameAux (acc : List Char) : List Char → List Char
  | [] => acc.reverse
  | c :: rest => if c = '/' then basenameAux [] rest else basenameAux (c :: acc) rest

/-- Model of os.path.basename for slash-separated paths. -/
def os_path_basename (p : String) : String := String.mk (basenameAux [] p.data)

/-- One documentation unit: the dict built at lines 48-55 of parse_file. -/
structure DocRecord where
  type : String
  name : String
  docstring : String
  file : String
  fileName : String
  code : String
deriving DecidableEq, Repr

/-- Model of extract_docstring (lines 17-24 of codex.py): None unless the
node is a Module, ClassDef, FunctionDef or AsyncFunctionDef; otherwise the
stripped docstring when ast.get_docstring returns a truthy (non-empty)
string, and None when it returns None or an empty string. -/
def extract_docstring (n : ASTNode) : Option String :=
  match n.kind with
  | .module | .classDef | .functionDef | .asyncFunctionDef =>
    match n.docAttr with
    | some d => if d = "" then none else some (pyStrip d)
    | none => none
  | .other _ => none

/-- Loop body of parse_file (lines 38-57) for one visited node: ok none
when the node is skipped, ok (some record) when a record is appended, and
error when reading node.lineno raises AttributeError (ast.Module carries
no lineno attribute, so a truthy module docstring sends the whole file
into the except-branch of parse_file). -/
def recordOf (filePath content : String) (n : ASTNode) :
    Except Unit (Option DocRecord) :=
  match extract_docstring n with
  | some docstring =>
    if docstring = "" then .ok none
    else
      match n.lineno with
      | none => .error ()
      | some ln =>
        let startLine := ln - 1
        let endLine := match n.endLineno with
          | some e => e
          | none => startLine
        .ok (some {
          type := n.kind.typeName
          name := n.nameAttr.getD "Module"
          docstring := docstring
          file := filePath
          fileName := String.mk (removePy (os_path_basename filePath).data)
          code := sliceLines content startLine endLine })
  | none => .ok none

/-- Record a node contributes when no exception interrupts the loop of
parse_file; used to state traversal-order results. -/
def recordOfSome (filePath content : String) (n : ASTNode) : Option DocRecord :=
  match recordOf filePath content n with
  | .ok r => r
  | .error _ => none

/-- The for-loop of parse_file over the walked nodes: stops with error
when a node raises, otherwise collects the appended records in visit
order. -/
def extractAll (filePath content : String) : List ASTNode → Except Unit (List DocRecord)
  | [] => .ok []
  | n :: rest =>
    match recordOf filePath content n with
    | .error e => .error e
    | .ok none => extractAll filePath content rest
    | .ok (some r) =>
      match extractAll filePath content rest with
      | .error e => .error e
      | .ok rs => .ok (r :: rs)

/-- Records parse_file returns for a file whose bytes decoded and whose
text parsed: the walked-tree extraction, with any in-loop exception
converted by the except-branches of lines 59-67 into the empty list. -/
def extractRecords (filePath content : String) (tree : ASTNode) : List DocRecord :=
  match extractAll filePath content (ast_walk tree) with
  | .ok recs => recs
  | .error _ => []

/-- Outcome of the black-box stages of parse_file on one file: either the
decoded text together with the syntax tree ast.parse built from it, or one
of the exception classes caught at lines 59-67 (ast.parse raising
SyntaxError, decoding raising UnicodeDecodeError, or anything else). -/
inductive FileOutcome where
  | parsed (content : String) (tree : ASTNode)
  | syntaxError
  | decodeError
  | otherError

/-- Model of parse_file (lines 27-67): a caught exception yields the empty
list, a parsed file yields the walked-tree extraction (which itself falls
into the except-branch when a node raises mid-loop). -/
def parse_file (path : String) (fo : FileOutcome) : List DocRecord :=
  match fo with
  | .parsed content tree => extractRecords path content tree
  | .syntaxError => []
  | .decodeError => []
  | .otherError => []

/-- A directory entry of the modelled file system: a plain file carrying
the outcome its processing would have, or a subdirectory with its listing
in os.listdir order.  Names within one listing are distinct on a real file
system; the model relies on that when it renders the list.remove pruning
of process_project as skipping excluded names. -/
inductive FSTree where
  | file (name : String) (outcome : FileOutcome)
  | dir (name : String) (entries : List FSTree)

/-- Model of os.path.join for a relative second component. -/
def pathJoin (a b : String) : String := a ++ "/" ++ b

/-- The fixed exclusion list of process_project (lines 265-270). -/
def excludedDirs : List String := ["venv", ".git", "__pycache__"]

/-- Suffix test matching the Python endswith call at line 273. -/
def pyEndsWith (s suffix : String) : Bool := suffix.data.isSuffixOf s.data

/-- The inner file loop of process_project (lines 272-274) for one yielded
directory: the plain files of the listing whose name ends in ".py", joined
to the directory path, in listing order. -/
def pyFilesAt (path : String) : List FSTree → List (String × FileOutcome)
  | [] => []
  | .file n fo :: rest =>
    if pyEndsWith n ".py" then (pathJoin path n, fo) :: pyFilesAt path rest
    else pyFilesAt path rest
  | .dir _ _ :: rest => pyFilesAt path rest

mutual

/-- Contribution of one directory entry to the os.walk traversal of
process_project (top-down), with the pruning of lines 265-270 applied:
subdirectories named venv, .git or __pycache__ are removed from the dirs
list before descent, so nothing below them is ever yielded; a plain file
contributes nothing here (files are yielded with their parent directory).
For a surviving subdirectory, os.walk yields its own files first and then
recurses into its entries. -/
def walkTree (path : String) : FSTree → List (String × FileOutcome)
  | .file _ _ => []
  | .dir dname dentries =>
    if dname ∈ excludedDirs then []
    else pyFilesAt (pathJoin path dname) dentries
      ++ walkTreeList (pathJoin path dname) dentries

/-- Traversal below a directory listing: each entry in listing order. -/
def walkTreeList (path : String) : List FSTree → List (String × FileOutcome)
  | [] => []
  | e :: rest => walkTree path e ++ walkTreeList path rest

end

/-- All .py files the walk of process_project visits below a root listing,
in visit order: the files of the root directory itself, then the pruned
recursive descent. -/
def walkFrom (path : String) (entries : List FSTree) : List (String × FileOutcome) :=
  pyFilesAt path entries ++ walkTreeList path entries

/-- Accumulation step of process_project (lines 275-279): a file with a
truthy (non-empty) record list extends all_docstrings, any other file is
appended to skipped_files. -/
def collectStep (acc : List DocRecord × List String) (pf : String × FileOutcome) :
    List DocRecord × List String :=
  let docstrings := parse_file pf.1 pf.2
  if docstrings.isEmpty then (acc.1, acc.2 ++ [pf.1])
  else (acc.1 ++ docstrings, acc.2)

/-- Model of process_project (lines 258-281) up to the final rendering:
the DocumentationSet and the SkippedFile list accumulated over the visited
files in traversal order. -/
def process_project (projectPath : String) (rootEntries : List FSTree) :
    List DocRecord × List String :=
  (walkFrom projectPath rootEntries).foldl collectStep ([], [])

/-- Head of the HTML template (lines 75-80 of codex.py) up to the title
element.  Literal braces of the template are written as escapes so that
the text is unambiguous. -/
def htmlHeadPre : String :=
  "\n    <!DOCTYPE html>\n    <html lang=\"en\">\n    <head>\n        <meta charset=\"UTF-8\">\n        <meta name=\"viewport\" content=\"width=device-width, initial-scale=1.0\">\n        "

/-- The fixed title element of the template (line 81). -/
def htmlTitle : String := "<title>tg-poster</title>"

/-- The embedded stylesheet rules of the template (lines 82-164), ending
with the indentation that precedes the interpolated pygments stylesheet. -/
def htmlCssRules : String :=
  "\n        <style>\n            body \x7b\n                font-family: Arial, sans-serif;\n                margin: 0;\n                padding: 0;\n                display: flex;\n            \x7d\n            .sidebar \x7b\n                width: 250px;\n                background-color: #f4f4f4;\n                padding: 20px;\n                height: 100vh;\n                overflow-y: auto;\n                box-shadow: 2px 0 5px rgba(0, 0, 0, 0.1);\n            \x7d\n            .sidebar h2 \x7b\n                margin-top: 0;\n            \x7d\n            .sidebar ul \x7b\n                list-style: none;\n                padding: 0;\n            \x7d\n            .sidebar ul li \x7b\n                margin: 10px 0;\n            \x7d\n            .sidebar ul li a \x7b\n                text-decoration: none;\n                color: #333;\n                font-weight: bold;\n            \x7d\n            .sidebar ul li a:hover \x7b\n                color: #007BFF;\n            \x7d\n            .sidebar .file \x7b\n                cursor: pointer;\n                font-weight: bold;\n            \x7d\n            .sidebar .file ul \x7b\n                display: none;\n                margin-left: 15px;\n            \x7d\n            .content \x7b\n                flex: 1;\n                padding: 20px;\n                overflow-y: auto;\n            \x7d\n            .docstring \x7b\n                margin-bottom: 20px;\n                padding: 15px;\n                border: 1px solid #ddd;\n                border-radius: 5px;\n                background-color: #fff;\n            \x7d\n            .docstring .file \x7b\n                font-size: 0.9em;\n                color: #888;\n                margin-bottom: 5px;\n            \x7d\n            .docstring .name \x7b\n                color: #333;\n                font-size: 1.2em;\n                margin-bottom: 10px;\n            \x7d\n            .docstring .name .keyword \x7b\n                color: green;\n            \x7d\n            .docstring .name .function-name \x7b\n                color: blue;\n            \x7d\n            .docstring .doc \x7b\n                color: #666;\n                white-space: pre-wrap;\n            \x7d\n            .toggle-code \x7b\n                margin-top: 10px;\n                color: #007BFF;\n                cursor: pointer;\n                text-decoration: underline;\n            \x7d\n            .code-block \x7b\n                display: none;\n                margin-top: 10px;\n            \x7d\n            "

/-- Template text between the interpolated stylesheet and the sidebar
heading (lines 166-169). -/
def htmlAfterCssPre : String :=
  "\n        </style>\n    </head>\n    <body>\n        <div class=\"sidebar\">\n            "

/-- The fixed sidebar heading of the template (line 170). -/
def htmlH2 : String := "<h2>tg-poster</h2>"

/-- Template text closing the head block (lines 171-172). -/
def htmlSidebarUlOpen : String := "\n            <ul>\n    "

/-- One step of the grouping loop at lines 175-180: Python dicts preserve
insertion order, so the mapping is an association list whose keys appear
in first-occurrence order and whose buckets keep DocumentationSet
order. -/
def insertGrouped (d : DocRecord) :
    List (String × List DocRecord) → List (String × List DocRecord)
  | [] => [(d.fileName, [d])]
  | (k, ds) :: rest =>
    if k = d.fileName then (k, ds ++ [d]) :: rest
    else (k, ds) :: insertGrouped d rest

/-- Grouping of records by fileName (lines 174-180). -/
def groupByFileName (docs : List DocRecord) : List (String × List DocRecord) :=
  docs.foldl (fun acc d => insertGrouped d acc) []

/-- Sidebar fragment for one file bucket (lines 183-196). -/
def sidebarEntry (file_name : String) (docs : List DocRecord) : String :=
  "\n            <li class=\"file\" onclick=\"toggleFile(\x27" ++ file_name
  ++ "\x27)\">\n                " ++ file_name
  ++ "\n                <ul id=\"" ++ file_name ++ "\">\n        "
  ++ String.join (docs.map (fun doc =>
      "\n                    <li><a href=\"#" ++ doc.name ++ "\">" ++ doc.name
      ++ "</a></li>\n            "))
  ++ "\n                </ul>\n            </li>\n        "

/-- Template text between the sidebar and the content area
(lines 198-202). -/
def sidebarClose : String :=
  "\n            </ul>\n        </div>\n        <div class=\"content\">\n    "

/-- Header fragment of one content block (lines 206-212): the keyword is
async def for AsyncFunctionDef records and def for everything else. -/
def function_header (doc : DocRecord) : String :=
  "\n            <span class=\"keyword\">"
  ++ (if doc.type = "AsyncFunctionDef" then "async def" else "def")
  ++ "</span>\n            <span class=\"function-name\">" ++ doc.name
  ++ "</span>\n        "

/-- Content block for one record (lines 214-227); hl is the black-box
pygments highlighter.  The anchor id fragment is grouped so that the
statement that the raw name lands between the quotes is visible. -/
def contentBlock (hl : String → String) (doc : DocRecord) : String :=
  "\n            <div class=\"docstring\" " ++ ("id=\x22" ++ doc.name ++ "\x22")
  ++ ">\n                <div class=\"file\">File: " ++ doc.file
  ++ "</div>\n                <div class=\"name\">" ++ function_header doc
  ++ "</div>\n                <div class=\"doc\">" ++ doc.docstring
  ++ "</div>\n                <div class=\"toggle-code\" onclick=\"toggleCode(\x27"
  ++ doc.name
  ++ "-code\x27)\">Показать код</div>\n                <div class=\"code-block\" id=\""
  ++ doc.name
  ++ "-code\">\n                    " ++ hl doc.code
  ++ "\n                </div>\n            </div>\n        "

/-- Template tail (lines 229-252): closing tags and the two toggle
scripts. -/
def htmlTail : String :=
  "\n        </div>\n        <script>\n            function toggleCode(id) \x7b\n                const codeBlock = document.getElementById(id);\n                if (codeBlock.style.display === \"none\") \x7b\n                    codeBlock.style.display = \"block\";\n                \x7d else \x7b\n                    codeBlock.style.display = \"none\";\n                \x7d\n            \x7d\n\n            function toggleFile(id) \x7b\n                const fileList = document.getElementById(id);\n                if (fileList.style.display === \"none\") \x7b\n                    fileList.style.display = \"block\";\n                \x7d else \x7b\n                    fileList.style.display = \"none\";\n                \x7d\n            \x7d\n        </script>\n    </body>\n    </html>\n    "

/-- Model of generate_html (lines 70-255) up to the final file write: the
pygments stylesheet and the highlighter are black-box collaborators passed
as arguments; the result is the string the function assembles and writes
to the output file. -/
def generate_html (pygments_css : String) (hl : String → String)
    (docstrings : List DocRecord) : String :=
  (htmlHeadPre ++ htmlTitle ++ htmlCssRules ++ pygments_css
    ++ htmlAfterCssPre ++ htmlH2 ++ htmlSidebarUlOpen)
  ++ String.join ((groupByFileName docstrings).map (fun g => sidebarEntry g.1 g.2))
  ++ sidebarClose
  ++ String.join (docstrings.map (contentBlock hl))
  ++ htmlTail

/-- Whether the per-file processing of this file raises an exception: the
black-box stages record a SyntaxError, a UnicodeDecodeError or another
exception, or the extraction loop itself raises on a docstring-bearing
node without a lineno attribute. -/
def fileRaises (path : String) (fo : FileOutcome) : Bool :=
  match fo with
  | .parsed content tree =>
    match extractAll path content (ast_walk tree) with
    | .ok _ => false
    | .error _ => true
  | _ => true

/-- Records contributed by a list of visited files, in visit order. -/
def recordsOfVisited : List (String × FileOutcome) → List DocRecord
  | [] => []
  | pf :: rest => parse_file pf.1 pf.2 ++ recordsOfVisited rest

/-- Paths of visited files whose record list came back empty, in visit
order; these are the entries of skipped_files. -/
def skippedOfVisited : List (String × FileOutcome) → List String
  | [] => []
  | pf :: rest =>
    if (parse_file pf.1 pf.2).isEmpty then pf.1 :: skippedOfVisited rest
    else skippedOfVisited rest

/-- Substring occurrence: t occurs contiguously inside s. -/
def occursIn (t s : String) : Prop := ∃ l r, s = l ++ t ++ r

theorem occursIn_append_left {t s : String} (u : String) (h : occursIn t s) :
    occursIn t (s ++ u) := by
  obtain ⟨l, r, rfl⟩ := h
  exact ⟨l, r ++ u, by simp [String.append_assoc]⟩

theorem occursIn_append_right {t s : String} (u : String) (h : occursIn t s) :
    occursIn t (u ++ s) := by
  obtain ⟨l, r, rfl⟩ := h
  exact ⟨u ++ l, r, by simp [String.append_assoc]⟩

theorem occursIn_trans {t u s : String} (h1 : occursIn t u) (h2 : occursIn u s) :
    occursIn t s := by
  obtain ⟨l1, r1, rfl⟩ := h1
  obtain ⟨l2, r2, rfl⟩ := h2
  exact ⟨l2 ++ l1, r1 ++ r2, by simp [String.append_assoc]⟩

theorem str_foldl_append (l : List String) (a : String) :
    l.foldl (fun r s => r ++ s) a = a ++ l.foldl (fun r s => r ++ s) "" := by
  induction l generalizing a with
  | nil => simp
  | cons x xs ih =>
    simp only [List.foldl_cons]
    rw [ih (a ++ x), ih ("" ++ x)]
    simp [String.append_assoc]

theorem str_join_cons (s : String) (l : List String) :
    String.join (s :: l) = s ++ String.join l := by
  show l.foldl (fun r s => r ++ s) ("" ++ s) = s ++ l.foldl (fun r s => r ++ s) ""
  rw [String.empty_append, str_foldl_append]

theorem occursIn_join_map {α : Type _} (f : α → String) {d : α} {ds : List α}
    (hmem : d ∈ ds) {t : String} (ht : occursIn t (f d)) :
    occursIn t (String.join (ds.map f)) := by
  induction ds with
  | nil => cases hmem
  | cons e rest ih =>
    rw [List.map_cons, str_join_cons]
    rcases List.mem_cons.mp hmem with h | h
    · subst h; exact occursIn_append_left _ ht
    · exact occursIn_append_right _ (ih h)

theorem sizeChildren_append (l1 l2 : List ASTNode) :
    sizeChildren (l1 ++ l2) = sizeChildren l1 + sizeChildren l2 := by
  induction l1 with
  | nil => simp [sizeChildren]
  | cons c cs ih => simp [sizeChildren, ih]; omega

/-- Concatenation of the children of all nodes of a forest, in order: one
breadth-first level down. -/
def childrenOfAll : List ASTNode → List ASTNode
  | [] => []
  | n :: rest => n.children ++ childrenOfAll rest

theorem sizeChildren_childrenOfAll (l : List ASTNode) :
    sizeChildren (childrenOfAll l) + l.length = sizeChildren l := by
  induction l with
  | nil => rfl
  | cons n rest ih =>
    cases n with
    | node k nm ln el d cs =>
      simp only [childrenOfAll, sizeChildren, ASTNode.size, ASTNode.children,
        sizeChildren_append, List.length_cons]
      omega

theorem sizeChildren_childrenOfAll_lt (n : ASTNode) (rest : List ASTNode) :
    sizeChildren (childrenOfAll (n :: rest)) < sizeChildren (n :: rest) := by
  have h := sizeChildren_childrenOfAll (n :: rest)
  simp only [List.length_cons] at h
  omega

/-- Level-order (breadth-first) traversal of a forest, written directly:
all the roots first, then all their children, level by level. -/
def levelOrder : List ASTNode → List ASTNode
  | [] => []
  | n :: rest => (n :: rest) ++ levelOrder (childrenOfAll (n :: rest))
termination_by l => sizeChildren l
decreasing_by
  exact sizeChildren_childrenOfAll_lt _ _

theorem levelOrder_nil : levelOrder [] = [] := by
  simp only [levelOrder]

theorem levelOrder_cons (n : ASTNode) (rest : List ASTNode) :
    levelOrder (n :: rest) = (n :: rest) ++ levelOrder (childrenOfAll (n :: rest)) := by
  simp only [levelOrder]

theorem walkQueueF_append (l : List ASTNode) :
    ∀ (acc : List ASTNode) (fuel : Nat),
      walkQueueF (l.length + fuel) (l ++ acc)
        = l ++ walkQueueF fuel (acc ++ childrenOfAll l) := by
  induction l with
  | nil =>
    intro acc fuel
    simp [childrenOfAll]
  | cons n rest ih =>
    intro acc fuel
    have hlen : (n :: rest).length + fuel = (rest.length + fuel) + 1 := by
      simp [List.length_cons]; omega
    rw [hlen]
    show walkQueueF ((rest.length + fuel) + 1) (n :: (rest ++ acc)) = _
    rw [walkQueueF]
    rw [List.append_assoc]
    rw [show rest.length + fuel = rest.length + fuel from rfl]
    rw [ih (acc ++ n.children) fuel]
    simp [childrenOfAll, List.append_assoc]

theorem walkQueueF_eq_levelOrder (l : List ASTNode) :
    walkQueueF (sizeChildren l) l = levelOrder l := by
  match l with
  | [] => rw [levelOrder_nil]; rfl
  | n :: rest =>
    have hsz := sizeChildren_childrenOfAll (n :: rest)
    have h1 : sizeChildren (n :: rest)
        = (n :: rest).length + sizeChildren (childrenOfAll (n :: rest)) := by
      omega
    rw [h1]
    have h2 := walkQueueF_append (n :: rest) []
      (sizeChildren (childrenOfAll (n :: rest)))
    rw [List.append_nil] at h2
    rw [h2, List.nil_append,
      walkQueueF_eq_levelOrder (childrenOfAll (n :: rest)), levelOrder_cons]
termination_by sizeChildren l
decreasing_by
  have h := sizeChildren_childrenOfAll (n :: rest)
  simp only [List.length_cons] at h
  omega

theorem ast_walk_eq_levelOrder (t : ASTNode) : ast_walk t = levelOrder [t] := by
  have h : sizeChildren [t] = ASTNode.size t := by
    simp [sizeChildren]
  rw [ast_walk, ← h, walkQueueF_eq_levelOrder]

theorem extractAll_ok_eq_filterMap (filePath content : String) :
    ∀ (nodes : List ASTNode) (recs : List DocRecord),
      extractAll filePath content nodes = .ok recs →
      recs = nodes.filterMap (recordOfSome filePath content) := by
  intro nodes
  induction nodes with
  | nil =>
    intro recs h
    simp only [extractAll] at h
    cases h
    rfl
  | cons n rest ih =>
    intro recs h
    rcases hrec : recordOf filePath content n with e | r
    · rw [extractAll, hrec] at h
      cases h
    · rcases r with _ | r0
      · rw [extractAll, hrec] at h
        rw [List.filterMap_cons]
        have hns : recordOfSome filePath content n = none := by
          rw [recordOfSome, hrec]
        rw [hns]
        exact ih recs h
      · rw [extractAll, hrec] at h
        rcases hrest : extractAll filePath content rest with e | rs
        · rw [hrest] at h; cases h
        · rw [hrest] at h
          cases h
          rw [List.filterMap_cons]
          have hns : recordOfSome filePath content n = some r0 := by
            rw [recordOfSome, hrec]
          rw [hns]
          rw [← ih rs hrest]

theorem foldl_collectStep (l : List (String × FileOutcome)) :
    ∀ (a : List DocRecord) (s : List String),
      l.foldl collectStep (a, s) = (a ++ recordsOfVisited l, s ++ skippedOfVisited l) := by
  induction l with
  | nil => intro a s; simp [recordsOfVisited, skippedOfVisited]
  | cons pf rest ih =>
    intro a s
    rw [List.foldl_cons]
    rcases hemp : (parse_file pf.1 pf.2).isEmpty with _ | _
    · have hstep : collectStep (a, s) pf = (a ++ parse_file pf.1 pf.2, s) := by
        rw [collectStep]
        simp [hemp]
      rw [hstep, ih]
      rw [recordsOfVisited, skippedOfVisited, hemp]
      simp [List.append_assoc]
    · have hnil : parse_file pf.1 pf.2 = [] := List.isEmpty_iff.mp (by rw [hemp])
      have hstep : collectStep (a, s) pf = (a, s ++ [pf.1]) := by
        rw [collectStep]
        simp [hemp]
      rw [hstep, ih]
      rw [recordsOfVisited, skippedOfVisited, hemp, hnil]
      simp [List.append_assoc]

theorem mem_skippedOfVisited {p : String} {fo : FileOutcome} :
    ∀ (l : List (String × FileOutcome)), (p, fo) ∈ l → parse_file p fo = [] →
      p ∈ skippedOfVisited l := by
  intro l
  induction l with
  | nil => intro h _; cases h
  | cons pf rest ih =>
    intro hmem hnil
    rw [skippedOfVisited]
    rcases List.mem_cons.mp hmem with h | h
    · subst h
      simp [hnil]
    · cases hemp : (parse_file pf.1 pf.2).isEmpty
      · simpa using ih h hnil
      · simpa using List.mem_cons_of_mem pf.1 (ih h hnil)

theorem of_mem_takeWhile (p : α → Bool) :
    ∀ l : List α, ∀ c ∈ l.takeWhile p, p c = true := by
  intro l
  induction l with
  | nil => intro c h; cases h
  | cons x xs ih =>
    intro c h
    rw [List.takeWhile_cons] at h
    cases hx : p x
    · rw [hx] at h
      simp at h
    · rw [hx] at h
      simp only [if_pos rfl] at h
      rcases List.mem_cons.mp h with h | h
      · rw [h]; exact hx
      · exact ih c h

theorem all_of_dropWhile_nil (p : α → Bool) :
    ∀ l : List α, l.dropWhile p = [] → ∀ c ∈ l, p c = true := by
  intro l
  induction l with
  | nil => intro _ c h; cases h
  | cons x xs ih =>
    intro hnil c h
    rw [List.dropWhile_cons] at hnil
    cases hx : p x
    · rw [hx] at hnil
      simp at hnil
    · rw [hx] at hnil
      simp only [if_pos rfl] at hnil
      rcases List.mem_cons.mp h with h | h
      · rw [h]; exact hx
      · exact ih hnil c h

theorem dropWhile_nil_or_exists (p : α → Bool) :
    ∀ l : List α, l.dropWhile p = [] ∨ ∃ c ∈ l.dropWhile p, p c = false := by
  intro l
  induction l with
  | nil => left; rfl
  | cons x xs ih =>
    rw [List.dropWhile_cons]
    cases hx : p x
    · right
      simp only [Bool.false_eq_true, if_false]
      exact ⟨x, List.mem_cons_self _ _, hx⟩
    · simpa using ih

theorem pyStrip_result_has_solid {s : String} (h : pyStrip s ≠ "") :
    ∃ c ∈ (pyStrip s).data, c.isWhitespace = false := by
  rcases dropWhile_nil_or_exists Char.isWhitespace
      ((s.data.dropWhile Char.isWhitespace).reverse) with hnil | ⟨c, hc, hw⟩
  · exfalso
    apply h
    apply String.ext
    show (((s.data.dropWhile Char.isWhitespace).reverse.dropWhile
      Char.isWhitespace).reverse) = ("" : String).data
    rw [hnil]
    rfl
  · exact ⟨c, List.mem_reverse.mpr hc, hw⟩

theorem pyStrip_ne_of_exists {s : String}
    (h : ∃ c ∈ s.data, c.isWhitespace = false) : pyStrip s ≠ "" := by
  obtain ⟨c, hc, hw⟩ := h
  intro hcon
  have hdata : (((s.data.dropWhile Char.isWhitespace).reverse.dropWhile
      Char.isWhitespace).reverse) = [] := by
    have := congrArg String.data hcon
    exact this
  have hinner : (s.data.dropWhile Char.isWhitespace).reverse.dropWhile
      Char.isWhitespace = [] := by
    rcases heq : (s.data.dropWhile Char.isWhitespace).reverse.dropWhile
        Char.isWhitespace with _ | ⟨x, xs⟩
    · rfl
    · rw [heq] at hdata; simp at hdata
  have hallrev := all_of_dropWhile_nil Char.isWhitespace _ hinner
  have halldrop : ∀ d ∈ s.data.dropWhile Char.isWhitespace,
      d.isWhitespace = true := by
    intro d hd
    exact hallrev d (List.mem_reverse.mpr hd)
  have hsplit : c ∈ s.data.takeWhile Char.isWhitespace
      ∨ c ∈ s.data.dropWhile Char.isWhitespace := by
    have := List.takeWhile_append_dropWhile Char.isWhitespace (l := s.data)
    rw [← this] at hc
    exact List.mem_append.mp hc
  rcases hsplit with hin | hin
  · rw [of_mem_takeWhile Char.isWhitespace s.data c hin] at hw
    cases hw
  · rw [halldrop c hin] at hw
    cases hw

mutual

/-- Pre-order (depth-first, parents before children) traversal of a tree.
This definition is written from the words of the specification sentence
about traversal order, to be compared with the walk the code performs. -/
def preOrder : ASTNode → List ASTNode
  | .node k nm ln el d cs => .node k nm ln el d cs :: preOrderList cs

/-- Pre-order traversal of a forest. -/
def preOrderList : List ASTNode → List ASTNode
  | [] => []
  | n :: rest => preOrder n ++ preOrderList rest

end

/-- Syntax tree of a file holding a documented class C with a documented
method m, followed by a documented top-level function g. -/
def classMethodTree : ASTNode :=
  .node .module none none none none
    [.node .classDef (some "C") (some 1) (some 5) (some "Class doc.")
       [.node .functionDef (some "m") (some 3) (some 5) (some "Method doc.") []],
     .node .functionDef (some "g") (some 7) (some 9) (some "G doc.") []]

/-- Source text matching classMethodTree. -/
def classMethodContent : String :=
  "class C:\n    \"\"\"Class doc.\"\"\"\n    def m(self):\n        \"\"\"Method doc.\"\"\"\n        return 1\n\ndef g():\n    \"\"\"G doc.\"\"\"\n    return 2\n"

/-- The records the embedding extracts from the class-method file. -/
def classMethodRecords : List DocRecord :=
  extractRecords "t.py" classMethodContent classMethodTree

/-- Syntax tree of a file whose tree builder reports no end line for its
documented function. -/
def noEndLineTree : ASTNode :=
  .node .module none none none none
    [.node .functionDef (some "f") (some 1) none (some "Docstring.") []]

/-- Source text matching noEndLineTree. -/
def noEndLineContent : String := "def f():\n    \"\"\"Docstring.\"\"\"\n    return 1"

/-- The record the no-end-line file produces. -/
def noEndLineRec : DocRecord :=
  { type := "FunctionDef", name := "f", docstring := "Docstring.",
    file := "u.py", fileName := "u", code := "" }

/-- Syntax tree of a minimal file with one documented function h. -/
def doubledExtTree : ASTNode :=
  .node .module none none none none
    [.node .functionDef (some "h") (some 1) (some 2) (some "Doc.") []]

/-- Source text matching doubledExtTree. -/
def doubledExtContent : String := "def h():\n    pass"

/-- The record the file pkg/a.py.py produces. -/
def doubledExtRec : DocRecord :=
  { type := "FunctionDef", name := "h", docstring := "Doc.",
    file := "pkg/a.py.py", fileName := "a", code := "def h():\n    pass" }

/-- C1 counterexample: for a parsed file holding a documented class C with
a documented method m followed by a documented top-level function g, the
extracted records appear in the order C, g, m, which is not the order of
a depth-first pre-order traversal (that order would put m before g): the
walk is breadth-first. -/
theorem c1_extraction_not_preorder :
    (extractRecords "t.py" classMethodContent classMethodTree).map DocRecord.name
      = ["C", "g", "m"]
    ∧ extractRecords "t.py" classMethodContent classMethodTree
      ≠ (preOrder classMethodTree).filterMap (recordOfSome "t.py" classMethodContent)
    ∧ ((preOrder classMethodTree).filterMap
        (recordOfSome "t.py" classMethodContent)).map DocRecord.name
      = ["C", "m", "g"] := by
  refine ⟨by decide, by decide, by decide⟩

/-- C1 (amended): for every file whose per-file extraction completes
without raising, the records appear in the DocumentationSet in
breadth-first level order of the syntax tree — every node visited exactly
once and parents before children, but each level in full before the next —
so a documented method inside a class is listed after every later
documented top-level sibling rather than before it. -/
theorem c1_records_in_level_order (path content : String) (tree : ASTNode)
    (recs : List DocRecord)
    (h : extractAll path content (ast_walk tree) = .ok recs) :
    extractRecords path content tree
      = (levelOrder [tree]).filterMap (recordOfSome path content) := by
  have h2 := extractAll_ok_eq_filterMap path content (ast_walk tree) recs h
  simp only [extractRecords, h]
  rw [h2, ast_walk_eq_levelOrder]

/-- Witness for c1_records_in_level_order at the class-method tree. -/
theorem c1_records_in_level_order_witness :
    extractRecords "t.py" classMethodContent classMethodTree
      = (levelOrder [classMethodTree]).filterMap
          (recordOfSome "t.py" classMethodContent) :=
  c1_records_in_level_order "t.py" classMethodContent classMethodTree
    classMethodRecords rfl

/-- C2 counterexample: when the tree reports no end line for the
documented declaration def f(): the record's codeSnippet is the empty
string, while the single start line of the declaration is def f(): — the
snippet does not degenerate to the start line, it degenerates to
nothing. -/
theorem c2_snippet_empty_not_start_line :
    (extractRecords "u.py" noEndLineContent noEndLineTree).map DocRecord.code = [""]
    ∧ (pySplitlines noEndLineContent).getD 0 "" = "def f():"
    ∧ ("" : String) ≠ "def f():" := by
  refine ⟨by decide, by decide, by decide⟩

/-- C2 (amended): for every docstring-bearing node that has a start line
but whose syntax-tree metadata does not report an end line, the resulting
codeSnippet is the empty string: the slice runs from the zero-based start
index to that same index exclusive and therefore selects no lines. -/
theorem c2_no_end_line_gives_empty_snippet (path content : String) (n : ASTNode)
    (r : DocRecord) (hend : n.endLineno = none)
    (h : recordOf path content n = .ok (some r)) : r.code = "" := by
  rcases hd : extract_docstring n with _ | d
  · simp only [recordOf, hd] at h
    simp at h
  · simp only [recordOf, hd] at h
    by_cases hd0 : d = ""
    · rw [if_pos hd0] at h
      simp at h
    · rw [if_neg hd0] at h
      rcases hl : n.lineno with _ | ln
      · simp only [hl] at h
        simp at h
      · simp only [hl, hend] at h
        injection h with h1
        injection h1 with h2
        subst h2
        show sliceLines content (ln - 1) (ln - 1) = ""
        rw [sliceLines, Nat.sub_self, List.take_zero]
        rfl

/-- Witness for c2_no_end_line_gives_empty_snippet at the no-end-line
node. -/
theorem c2_no_end_line_gives_empty_snippet_witness :
    recordOf "u.py" noEndLineContent
        (ASTNode.node .functionDef (some "f") (some 1) none (some "Docstring.") [])
      = .ok (some noEndLineRec)
    ∧ noEndLineRec.code = "" :=
  ⟨rfl, c2_no_end_line_gives_empty_snippet "u.py" noEndLineContent
    (ASTNode.node .functionDef (some "f") (some 1) none (some "Docstring.") [])
    noEndLineRec rfl rfl⟩

/-- C3 counterexample: for the path pkg/a.py.py the record's fileKey is a:
both occurrences of .py were removed, while the claim promises a.py with
only the trailing extension stripped and interior occurrences
preserved. -/
theorem c3_filekey_strips_all_occurrences :
    (extractRecords "pkg/a.py.py" doubledExtContent doubledExtTree).map
        DocRecord.fileName = ["a"]
    ∧ ("a" : String) ≠ "a.py" := by
  refine ⟨by decide, by decide⟩

/-- C3 (amended): fileKey is the basename of the path with every
non-overlapping occurrence of the substring .py removed, scanning left to
right — not only a trailing extension: util.py gives util, a.py.py gives
a, and x.pyz gives xz even though that name has no trailing .py
extension. -/
theorem c3_filekey_removes_every_py (path content : String) (n : ASTNode)
    (r : DocRecord) (h : recordOf path content n = .ok (some r)) :
    r.fileName = String.mk (removePy (os_path_basename path).data)
    ∧ String.mk (removePy (os_path_basename "util.py").data) = "util"
    ∧ String.mk (removePy (os_path_basename "a.py.py").data) = "a"
    ∧ String.mk (removePy (os_path_basename "x.pyz").data) = "xz" := by
  refine ⟨?_, by decide, by decide, by decide⟩
  rcases hd : extract_docstring n with _ | d
  · simp only [recordOf, hd] at h
    simp at h
  · simp only [recordOf, hd] at h
    by_cases hd0 : d = ""
    · rw [if_pos hd0] at h
      simp at h
    · rw [if_neg hd0] at h
      rcases hl : n.lineno with _ | ln
      · simp only [hl] at h
        simp at h
      · simp only [hl] at h
        injection h with h1
        injection h1 with h2
        subst h2
        rfl

/-- Witness for c3_filekey_removes_every_py at the doubled-extension
path. -/
theorem c3_filekey_removes_every_py_witness :
    doubledExtRec.fileName
        = String.mk (removePy (os_path_basename "pkg/a.py.py").data)
    ∧ String.mk (removePy (os_path_basename "util.py").data) = "util"
    ∧ String.mk (removePy (os_path_basename "a.py.py").data) = "a"
    ∧ String.mk (removePy (os_path_basename "x.pyz").data) = "xz" :=
  c3_filekey_removes_every_py "pkg/a.py.py" doubledExtContent
    (ASTNode.node .functionDef (some "h") (some 1) (some 2) (some "Doc.") [])
    doubledExtRec rfl

/-- Syntax tree of the scenario file util.py with one documented function
add. -/
def utilTree : ASTNode :=
  .node .module none none none none
    [.node .functionDef (some "add") (some 1) (some 3)
      (some "Add two numbers.") []]

/-- Source text matching utilTree. -/
def utilContent : String :=
  "def add(a, b):\n    \"\"\"Add two numbers.\"\"\"\n    return a + b"

/-- The record the walk of scenario C produces for ./a.py. -/
def scenarioCRecord : DocRecord :=
  { type := "FunctionDef", name := "add", docstring := "Add two numbers.",
    file := "./a.py", fileName := "a", code := utilContent }

/-- Syntax tree of a Python file inside the venv directory of
scenario C. -/
def venvTree : ASTNode :=
  .node .module none none none none
    [.node .functionDef (some "secret") (some 1) (some 2) (some "Hidden.") []]

/-- Root listing of scenario C: a.py with one documented function next to
a venv directory holding its own Python file. -/
def scenarioCEntries : List FSTree :=
  [FSTree.file "a.py" (FileOutcome.parsed utilContent utilTree),
   FSTree.dir "venv" [FSTree.file "lib.py" (FileOutcome.parsed "def secret():\n    pass" venvTree)]]

/-- Root listing with one file that raises a SyntaxError and one that
parses. -/
def c4Entries : List FSTree :=
  [FSTree.file "bad.py" FileOutcome.syntaxError,
   FSTree.file "good.py" (FileOutcome.parsed utilContent utilTree)]

/-- C4: the DocumentationSet is the concatenation of the per-file results
over every visited file in traversal order and the SkippedFile list is
the visit-ordered list of paths whose per-file result was empty — so no
per-file failure aborts the run; moreover a file whose processing raises
a syntax error, a decode error, or any other exception (including the
extraction loop raising mid-file) contributes exactly zero records and
its path is appended to the SkippedFile list. -/
theorem c4_failures_skip_and_continue (pp : String) (entries : List FSTree) :
    (process_project pp entries).1 = recordsOfVisited (walkFrom pp entries)
    ∧ (process_project pp entries).2 = skippedOfVisited (walkFrom pp entries)
    ∧ ∀ p fo, (p, fo) ∈ walkFrom pp entries → fileRaises p fo = true →
        parse_file p fo = [] ∧ p ∈ (process_project pp entries).2 := by
  have hfold := foldl_collectStep (walkFrom pp entries) [] []
  have h1 : (process_project pp entries).1 = recordsOfVisited (walkFrom pp entries) := by
    rw [process_project, hfold]
    simp
  have h2 : (process_project pp entries).2 = skippedOfVisited (walkFrom pp entries) := by
    rw [process_project, hfold]
    simp
  refine ⟨h1, h2, ?_⟩
  intro p fo hmem hraise
  have hnil : parse_file p fo = [] := by
    cases fo with
    | parsed content tree =>
      simp only [parse_file]
      simp only [fileRaises] at hraise
      rcases hx : extractAll p content (ast_walk tree) with e | rs
      · simp only [extractRecords, hx]
      · rw [hx] at hraise
        simp at hraise
    | syntaxError => rfl
    | decodeError => rfl
    | otherError => rfl
  refine ⟨hnil, ?_⟩
  rw [h2]
  exact mem_skippedOfVisited _ hmem hnil

/-- Witness for c4_failures_skip_and_continue: a root with a bad.py that
raises a SyntaxError and a good.py that parses. -/
theorem c4_failures_skip_and_continue_witness :
    parse_file "./bad.py" FileOutcome.syntaxError = []
    ∧ "./bad.py" ∈ (process_project "." c4Entries).2 :=
  (c4_failures_skip_and_continue "." c4Entries).2.2 "./bad.py"
    FileOutcome.syntaxError (List.Mem.head _) rfl

theorem extract_docstring_is_strip (n : ASTNode) (d : String)
    (h : extract_docstring n = some d) : ∃ d0, d0 ≠ "" ∧ d = pyStrip d0 := by
  rcases n with ⟨k, nm, ln, el, doc, cs⟩
  rcases doc with _ | d0
  · exfalso
    cases k <;> simp [extract_docstring, ASTNode.kind, ASTNode.docAttr] at h
  · by_cases h0 : d0 = ""
    · exfalso
      cases k <;>
        simp [extract_docstring, ASTNode.kind, ASTNode.docAttr, h0] at h
    · refine ⟨d0, h0, ?_⟩
      cases k <;>
        simp [extract_docstring, ASTNode.kind, ASTNode.docAttr, h0] at h <;>
        exact h.symm

/-- C5: every DocRecord ever placed in the DocumentationSet has a
docstring that is non-empty, and still non-empty after trimming
surrounding whitespace: whitespace-only or absent documentation text is
filtered out at record creation, so the invariant already holds when the
renderer later consumes the records unchanged. -/
theorem c5_docstring_nonempty_after_trim (path content : String)
    (tree : ASTNode) (r : DocRecord) (h : r ∈ extractRecords path content tree) :
    pyStrip r.docstring ≠ "" ∧ r.docstring ≠ "" := by
  rcases hx : extractAll path content (ast_walk tree) with e | recs
  · simp only [extractRecords, hx] at h
    cases h
  · simp only [extractRecords, hx] at h
    rw [extractAll_ok_eq_filterMap path content _ recs hx] at h
    obtain ⟨n, hn, hsome⟩ := List.mem_filterMap.mp h
    rcases hro : recordOf path content n with e | ro
    · rw [recordOfSome, hro] at hsome
      cases hsome
    · rw [recordOfSome, hro] at hsome
      subst hsome
      rcases hd : extract_docstring n with _ | d
      · simp only [recordOf, hd] at hro
        simp at hro
      · simp only [recordOf, hd] at hro
        by_cases hd0 : d = ""
        · rw [if_pos hd0] at hro
          simp at hro
        · rw [if_neg hd0] at hro
          rcases hl : n.lineno with _ | ln
          · simp only [hl] at hro
            simp at hro
          · simp only [hl] at hro
            injection hro with h1
            injection h1 with h2
            subst h2
            obtain ⟨d0, hd0ne, hstrip⟩ := extract_docstring_is_strip n d hd
            constructor
            · show pyStrip d ≠ ""
              rw [hstrip]
              exact pyStrip_ne_of_exists
                (pyStrip_result_has_solid (hstrip ▸ hd0))
            · exact hd0

/-- Witness for c5_docstring_nonempty_after_trim at the util.py
record. -/
theorem c5_docstring_nonempty_after_trim_witness :
    scenarioCRecord ∈ extractRecords "./a.py" utilContent utilTree
    ∧ pyStrip scenarioCRecord.docstring ≠ "" :=
  ⟨by decide, (c5_docstring_nonempty_after_trim "./a.py" utilContent utilTree
    scenarioCRecord (by decide)).1⟩

/-- C6: for a docstring-bearing node whose tree metadata reports an end
line, the record's codeSnippet is sliceLines applied to the decoded
content, the zero-based start line and the end line — a pure function of
those three values, so it does not depend on the path and re-slicing the
same content with the same span reproduces the identical text; the slice
consists of the content's lines from index startLine up to but excluding
endLine, which are the declaration's first through reported last source
lines inclusive. -/
theorem c6_snippet_pure_slice (path content : String) (n : ASTNode)
    (ln e : Nat) (r : DocRecord) (hln : n.lineno = some ln)
    (hend : n.endLineno = some e)
    (h : recordOf path content n = .ok (some r)) :
    r.code = sliceLines content (ln - 1) e
    ∧ (∀ path2 r2, recordOf path2 content n = .ok (some r2) →
        r2.code = r.code)
    ∧ ∀ i, i < e - (ln - 1) →
        (((pySplitlines content).drop (ln - 1)).take (e - (ln - 1)))[i]?
          = (pySplitlines content)[(ln - 1) + i]? := by
  have hcode : ∀ path0 (r0 : DocRecord),
      recordOf path0 content n = .ok (some r0) →
      r0.code = sliceLines content (ln - 1) e := by
    intro path0 r0 h0
    rcases hd : extract_docstring n with _ | d
    · simp only [recordOf, hd] at h0
      simp at h0
    · simp only [recordOf, hd] at h0
      by_cases hd0 : d = ""
      · rw [if_pos hd0] at h0
        simp at h0
      · rw [if_neg hd0] at h0
        simp only [hln, hend] at h0
        injection h0 with h1
        injection h1 with h2
        subst h2
        rfl
  refine ⟨hcode path r h, fun path2 r2 h2 => by rw [hcode path2 r2 h2, hcode path r h], ?_⟩
  intro i hi
  rw [List.getElem?_take, if_pos hi, List.getElem?_drop]

/-- Witness for c6_snippet_pure_slice at the util.py function node. -/
theorem c6_snippet_pure_slice_witness :
    scenarioCRecord.code = sliceLines utilContent 0 3 :=
  (c6_snippet_pure_slice "./a.py" utilContent
    (ASTNode.node .functionDef (some "add") (some 1) (some 3)
      (some "Add two numbers.") [])
    1 3 scenarioCRecord rfl rfl rfl).1

/-- C7: a directory named venv, .git or __pycache__ contributes nothing
to the traversal — no file below it is ever visited or parsed — and in
the scenario of a root holding a.py (one documented function) next to a
venv directory with its own Python files, the DocumentationSet holds
exactly the a.py record and nothing is skipped. -/
theorem c7_excluded_dirs_never_visited :
    (∀ (path dname : String) (dentries : List FSTree),
        dname ∈ excludedDirs → walkTree path (FSTree.dir dname dentries) = [])
    ∧ (process_project "." scenarioCEntries).1 = [scenarioCRecord]
    ∧ (process_project "." scenarioCEntries).2 = [] := by
  refine ⟨?_, by decide, by decide⟩
  intro path dname dentries hmem
  simp only [walkTree]
  rw [if_pos hmem]

/-- Witness for c7_excluded_dirs_never_visited at a venv directory. -/
theorem c7_excluded_dirs_never_visited_witness :
    walkTree "." (FSTree.dir "venv" [FSTree.file "x.py" FileOutcome.otherError]) = []
    ∧ (process_project "." scenarioCEntries).1 = [scenarioCRecord] :=
  ⟨c7_excluded_dirs_never_visited.1 "." "venv"
      [FSTree.file "x.py" FileOutcome.otherError] (by decide),
    c7_excluded_dirs_never_visited.2.1⟩

theorem occursIn_doc_div_contentBlock (hl : String → String) (d : DocRecord) :
    occursIn ("<div class=\"doc\">" ++ d.docstring ++ "</div>")
      (contentBlock hl d) := by
  refine ⟨"\n            <div class=\"docstring\" " ++ ("id=\"" ++ d.name ++ "\"")
    ++ ">\n                <div class=\"file\">File: " ++ d.file
    ++ "</div>\n                <div class=\"name\">" ++ function_header d
    ++ "</div>\n                ",
    "\n                <div class=\"toggle-code\" onclick=\"toggleCode(\x27" ++ d.name
    ++ "-code\x27)\">Показать код</div>\n                <div class=\"code-block\" id=\""
    ++ d.name ++ "-code\">\n                    " ++ hl d.code
    ++ "\n                </div>\n            </div>\n        ", ?_⟩
  simp only [contentBlock]
  rw [show ("</div>\n                <div class=\"doc\">" : String)
    = "</div>\n                " ++ "<div class=\"doc\">" from by decide]
  rw [show ("</div>\n                <div class=\"toggle-code\" onclick=\"toggleCode(\x27" : String)
    = "</div>" ++ "\n                <div class=\"toggle-code\" onclick=\"toggleCode(\x27" from by decide]
  simp only [String.append_assoc]

theorem occursIn_id_contentBlock (hl : String → String) (d : DocRecord) :
    occursIn ("id=\"" ++ d.name ++ "\"") (contentBlock hl d) := by
  refine ⟨"\n            <div class=\"docstring\" ",
    ">\n                <div class=\"file\">File: " ++ d.file
    ++ "</div>\n                <div class=\"name\">" ++ function_header d
    ++ "</div>\n                <div class=\"doc\">" ++ d.docstring
    ++ "</div>\n                <div class=\"toggle-code\" onclick=\"toggleCode(\x27"
    ++ d.name
    ++ "-code\x27)\">Показать код</div>\n                <div class=\"code-block\" id=\""
    ++ d.name ++ "-code\">\n                    " ++ hl d.code
    ++ "\n                </div>\n            </div>\n        ", ?_⟩
  simp only [contentBlock, String.append_assoc]

theorem occursIn_contentBlock_output (css : String) (hl : String → String)
    {ds : List DocRecord} {d : DocRecord} (hmem : d ∈ ds) {t : String}
    (ht : occursIn t (contentBlock hl d)) :
    occursIn t (generate_html css hl ds) := by
  simp only [generate_html]
  apply occursIn_append_left
  apply occursIn_append_right
  exact occursIn_join_map (contentBlock hl) hmem ht

/-- C8: the renderer is a pure function of the stylesheet, the
highlighter, and the DocumentationSet, so any two runs over the same
DocumentationSet (same contents in the same traversal order) write
byte-identical HTML output. -/
theorem c8_generator_deterministic (css : String) (hl : String → String)
    (ds1 ds2 : List DocRecord) (h : ds1 = ds2) :
    generate_html css hl ds1 = generate_html css hl ds2 := by
  rw [h]

/-- Witness for c8_generator_deterministic: two runs over the scenario
record. -/
theorem c8_generator_deterministic_witness :
    generate_html "" (fun c => c) [scenarioCRecord]
      = generate_html "" (fun c => c) [scenarioCRecord] :=
  c8_generator_deterministic "" (fun c => c) [scenarioCRecord]
    [scenarioCRecord] rfl

/-- A record whose name and docstring carry HTML-special characters. -/
def specialRec : DocRecord :=
  { type := "FunctionDef", name := "f<g", docstring := "a < \"b\" > c",
    file := "p.py", fileName := "p", code := "def f(): pass" }

/-- C9: the renderer drops every record's docstring and name into the
document verbatim — the doc division contains the raw docstring text
between its tags and the anchor id attribute contains the raw name
between its quotes, with no HTML escaping — so HTML-special characters
such as the angle brackets and double quote appear unescaped in the
generated markup. -/
theorem c9_raw_unescaped_interpolation (css : String) (hl : String → String)
    (ds : List DocRecord) (d : DocRecord) (h : d ∈ ds) :
    occursIn ("<div class=\"doc\">" ++ d.docstring ++ "</div>")
      (generate_html css hl ds)
    ∧ occursIn ("id=\"" ++ d.name ++ "\"") (generate_html css hl ds) :=
  ⟨occursIn_contentBlock_output css hl h (occursIn_doc_div_contentBlock hl d),
   occursIn_contentBlock_output css hl h (occursIn_id_contentBlock hl d)⟩

/-- Witness for c9_raw_unescaped_interpolation: a record whose docstring
holds angle brackets and a double quote and whose name holds an angle
bracket; both land raw in the output. -/
theorem c9_raw_unescaped_interpolation_witness :
    occursIn ("<div class=\"doc\">" ++ "a < \"b\" > c" ++ "</div>")
      (generate_html "" (fun c => c) [specialRec])
    ∧ occursIn ("id=\"" ++ "f<g" ++ "\"")
      (generate_html "" (fun c => c) [specialRec]) :=
  c9_raw_unescaped_interpolation "" (fun c => c) [specialRec] specialRec
    (List.Mem.head _)

/-- C10: for every stylesheet, highlighter and DocumentationSet, the
generated document contains the fixed title element tg-poster and the
fixed sidebar heading tg-poster: both come from template literals that do
not depend on the project root, the output path, or the processed
files. -/
theorem c10_title_and_heading_fixed (css : String) (hl : String → String)
    (ds : List DocRecord) :
    occursIn "<title>tg-poster</title>" (generate_html css hl ds)
    ∧ occursIn "<h2>tg-poster</h2>" (generate_html css hl ds) := by
  constructor
  · simp only [generate_html]
    apply occursIn_append_left
    apply occursIn_append_left
    apply occursIn_append_left
    apply occursIn_append_left
    apply occursIn_append_left
    apply occursIn_append_left
    apply occursIn_append_left
    apply occursIn_append_left
    apply occursIn_append_left
    exact ⟨htmlHeadPre, "", by simp [htmlTitle]⟩
  · simp only [generate_html]
    apply occursIn_append_left
    apply occursIn_append_left
    apply occursIn_append_left
    apply occursIn_append_left
    apply occursIn_append_left
    exact ⟨htmlHeadPre ++ htmlTitle ++ htmlCssRules ++ css ++ htmlAfterCssPre,
      "", by simp [htmlH2]⟩

